import Mathlib

/-!
Verification of the byte90 web-installer serial transport and update
orchestrator (src/src/hooks/useSerial.ts and the updater hook in
src/unnamed/part_000).

The embedding works over decoded text as `List Char` (the read loop uses a
streaming TextDecoder, so multi-byte boundary handling is done below the level
we model) and treats the host JSON parser as an abstract parameter
`parse : List Char → Option SerialResponse`: theorems quantify over every
parser, which covers the host JSON.parse.  Machine integers do not occur: all
counters are small Nats.  Thrown JS exceptions are modelled as explicit
outcome constructors (`CmdOutcome.rejected`, `LoopResult.fatal`); every model
function is total, which is how the no-throw guarantees of the try/catch
wrappers in the source are expressed.
-/

/-- The decoded JSON payload record, merging the fields the engine reads from
SerialResponse and DeviceInfo (src/src/data/webserial.interface.ts).  Every
field is an `Option` because JSON.parse can return objects missing any of
them; `none` models the JS `undefined`. -/
structure SerialResponse where
  success : Option Bool
  message : Option String
  state : Option String
  completed : Option Bool
  update_active : Option Bool
  current_mode : Option String
deriving DecidableEq

/-- The JS `x || d` idiom applied to an optional string: an absent or empty
message falls back to the default. -/
def jsOr (x : Option String) (d : String) : String :=
  match x with
  | some s => if s = "" then d else s
  | none => d

/-- The JS template interpolation of a possibly-undefined string. -/
def optStr (x : Option String) : String :=
  match x with
  | some s => s
  | none => "undefined"

/-- Decidable check that a character list starts with the given pattern,
modelling String.startsWith on decoded lines. -/
def startsWithL : List Char → List Char → Bool
  | _, [] => true
  | [], _ :: _ => false
  | c :: cs, p :: ps => c == p && startsWithL cs ps

/-- RESPONSE_PREFIXES.OK (useSerial.ts:47). -/
def okPfx : List Char := ['O', 'K', ':']

/-- RESPONSE_PREFIXES.ERROR (useSerial.ts:48). -/
def errPfx : List Char := ['E', 'R', 'R', 'O', 'R', ':']

/-- RESPONSE_PREFIXES.PROGRESS (useSerial.ts:49). -/
def progPfx : List Char := ['P', 'R', 'O', 'G', 'R', 'E', 'S', 'S', ':']

/-- How handleResponse (useSerial.ts:169-201) classifies one trimmed line:
dropped (unknown lead-in or failed JSON parse, the early returns), an OK
response, an ERROR response (success forced to false at useSerial.ts:185), or
a PROGRESS event. -/
inductive Classified where
  | droppedLine
  | okResp (r : SerialResponse)
  | errResp (r : SerialResponse)
  | progressResp (r : SerialResponse)
deriving DecidableEq

/-- Classification part of handleResponse (useSerial.ts:169-201).  `parse`
stands for the host JSON.parse followed by the cast to SerialResponse;
`none` models a thrown parse error, which the source catches and turns into
an early return. -/
def classifyLine (parse : List Char → Option SerialResponse) (line : List Char) :
    Classified :=
  if startsWithL line okPfx then
    match parse (line.drop 3) with
    | some r => .okResp r
    | none => .droppedLine
  else if startsWithL line errPfx then
    match parse (line.drop 6) with
    | some r => .errResp { r with success := some false }
    | none => .droppedLine
  else if startsWithL line progPfx then
    match parse (line.drop 9) with
    | some r => .progressResp r
    | none => .droppedLine
  else .droppedLine

/-- One registered pending-command continuation (pendingCommandRef,
useSerial.ts:85-87).  The source stores a bare closure; the ghost `id` field
names each registration so that at-most-once delivery can be stated, and
`command` records the command name captured by the closure for the timeout
message. -/
structure Waiter where
  id : Nat
  command : String
deriving DecidableEq

/-- Result of running the routing tail of handleResponse
(useSerial.ts:203-212) on one line: the new pending slot, the response (if
any) delivered to a pending registration, and the response (if any) handed to
window.progressHandler. -/
structure RouteResult where
  pending : Option Waiter
  delivered : Option (Nat × SerialResponse)
  progressOut : Option SerialResponse
deriving DecidableEq

/-- handleResponse (useSerial.ts:169-213) as a state transformer on the
pending slot.  Progress events bypass the slot; classified non-progress
responses clear the slot before the stored handler is invoked
(useSerial.ts:209-211); dropped lines leave everything untouched. -/
def handleResponse (parse : List Char → Option SerialResponse) (line : List Char)
    (pending : Option Waiter) : RouteResult :=
  match classifyLine parse line with
  | .droppedLine => ⟨pending, none, none⟩
  | .progressResp r => ⟨pending, none, some r⟩
  | .okResp r | .errResp r =>
    match pending with
    | some w => ⟨none, some (w.id, r), none⟩
    | none => ⟨none, none, none⟩

/-- The mutable transport state the claims are about: the single
pending-command slot plus a ghost counter supplying fresh registration ids. -/
structure TransportState where
  pending : Option Waiter
  nextId : Nat
deriving DecidableEq

/-- Events that touch the pending slot: sendCommand registering its
continuation (useSerial.ts:121), a deadline timer firing
(useSerial.ts:115-119), and the read loop handing a trimmed line to
handleResponse (useSerial.ts:230-234). -/
inductive TEvent where
  | send (command : String)
  | timeoutFire (w : Waiter)
  | lineArrive (line : List Char)

/-- Observable outcome of one event: nothing, a timeout rejection surfaced to
the caller of registration `id`, a response resolved to registration `id`, or
a progress event handed to window.progressHandler. -/
inductive TOutput where
  | silent
  | timeoutError (id : Nat) (command : String)
  | resolvedTo (id : Nat) (r : SerialResponse)
  | progressOut (r : SerialResponse)
deriving DecidableEq

/-- One transition of the transport.  send overwrites the slot without any
occupancy check, exactly as useSerial.ts:121 does.  timeoutFire performs
`pendingCommandRef.current = null` and then rejects (useSerial.ts:117-118) —
the slot is cleared in the same atomic step that surfaces the error.
lineArrive routes through handleResponse. -/
def step (parse : List Char → Option SerialResponse) (s : TransportState) :
    TEvent → TransportState × TOutput
  | .send cmd => (⟨some ⟨s.nextId, cmd⟩, s.nextId + 1⟩, .silent)
  | .timeoutFire w => (⟨none, s.nextId⟩, .timeoutError w.id w.command)
  | .lineArrive line =>
    match classifyLine parse line with
    | .droppedLine => (s, .silent)
    | .progressResp r => (s, .progressOut r)
    | .okResp r | .errResp r =>
      match s.pending with
      | some w => (⟨none, s.nextId⟩, .resolvedTo w.id r)
      | none => (s, .silent)

/-- Run a sequence of transport events, collecting the outputs. -/
def runT (parse : List Char → Option SerialResponse) (s : TransportState) :
    List TEvent → TransportState × List TOutput
  | [] => (s, [])
  | e :: es =>
    let p := step parse s e
    let q := runT parse p.1 es
    (q.1, p.2 :: q.2)

/-- How many outputs of a run deliver a response to registration `id`. -/
def deliveryCount (os : List TOutput) (id : Nat) : Nat :=
  os.countP fun o =>
    match o with
    | .resolvedTo j _ => j == id
    | _ => false

/-- A parser that accepts nothing; used to instantiate closed statements. -/
def parseNone : List Char → Option SerialResponse := fun _ => none

/-! Read-loop line reassembly (startListening, useSerial.ts:215-241). -/

/-- The JS whitespace characters relevant to `line.trim()` on protocol lines. -/
def isWsChar (c : Char) : Bool :=
  c == ' ' || c == '\t' || c == '\n' || c == '\r'

/-- String.prototype.trim on a decoded line. -/
def trimL (l : List Char) : List Char :=
  ((l.dropWhile isWsChar).reverse.dropWhile isWsChar).reverse

/-- String.prototype.split on the newline character: always returns at least
one (possibly empty) part. -/
def splitNl : List Char → List (List Char)
  | [] => [[]]
  | c :: cs =>
    if c = '\n' then [] :: splitNl cs
    else
      match splitNl cs with
      | [] => [[c]]
      | l :: ls => (c :: l) :: ls

/-- The lines the loop body hands to the classifier: each complete part,
trimmed, kept only when nonempty (useSerial.ts:230-234). -/
def emitLines (ls : List (List Char)) : List (List Char) :=
  ls.filterMap fun l =>
    let t := trimL l
    if t = [] then none else some t

/-- One iteration of the read loop body (useSerial.ts:225-234): append the
decoded chunk to the carry buffer, split on newline, keep the trailing
partial line as the new buffer (`lines.pop() || ''`), and emit the trimmed
nonempty complete lines. -/
def readStep (buffer chunk : List Char) : List (List Char) × List Char :=
  let parts := splitNl (buffer ++ chunk)
  (emitLines parts.dropLast, parts.getLastD [])

/-- The read loop over a sequence of decoded read results, starting from a
carry buffer; returns all emitted lines in order and the final carry. -/
def readLoop (buffer : List Char) : List (List Char) → List (List Char) × List Char
  | [] => ([], buffer)
  | chunk :: rest =>
    let p := readStep buffer chunk
    let q := readLoop p.2 rest
    (p.1 ++ q.1, q.2)

/-! Updater hook (src/unnamed/part_000). -/

/-- The base64 alphabet used by the host btoa. -/
def b64Char (n : Nat) : Char :=
  "ABCDEFGHIJKLMNOPQRSTUVWXYZabcdefghijklmnopqrstuvwxyz0123456789+/".toList.getD n '='

/-- btoa on a byte sequence: standard base64 with `=` padding. -/
def btoa : List Nat → List Char
  | [] => []
  | [b0] => [b64Char (b0 / 4), b64Char (b0 % 4 * 16), '=', '=']
  | [b0, b1] =>
    [b64Char (b0 / 4), b64Char (b0 % 4 * 16 + b1 / 16), b64Char (b1 % 16 * 4), '=']
  | b0 :: b1 :: b2 :: rest =>
    b64Char (b0 / 4) :: b64Char (b0 % 4 * 16 + b1 / 16) ::
      b64Char (b1 % 16 * 4 + b2 / 64) :: b64Char (b2 % 64) :: btoa rest

/-- arrayBufferToBase64 (part_000:48-56): the source builds a byte-per-char
binary string with String.fromCharCode and feeds it to btoa; the net effect
on the underlying bytes is plain base64. -/
def arrayBufferToBase64 (bytes : List Nat) : List Char :=
  btoa bytes

/-- ArrayBuffer.slice(start, fin) on the payload bytes. -/
def sliceBytes (payload : List Nat) (start fin : Nat) : List Nat :=
  (payload.drop start).take (fin - start)

/-- The outcome the updater observes from one awaited serial.sendCommand
call: the promise resolves with a response, or rejects with an error whose
message is recorded (timeout, write failure, invalid response). -/
inductive CmdOutcome where
  | resolved (r : SerialResponse)
  | rejected (msg : String)
deriving DecidableEq

/-- True when the outcome is a resolved response with a truthy success field:
the all-success device behaviour. -/
def isOkOutcome : CmdOutcome → Bool
  | .resolved r => r.success == some true
  | .rejected _ => false

/-- One SEND_CHUNK invocation recorded by the model: the chunk index and the
base64 payload it carried. -/
structure ChunkSend where
  index : Nat
  payload : List Char
deriving DecidableEq

/-- How the chunk loop (part_000:200-253) ends: the for-loop exits normally
(carrying the final bytesTransferred), a fatal throw escapes to the outer
catch, or the supplied outcome oracle ran out (a model artifact marking an
unfinished run with the loop variables at that point). -/
inductive LoopResult where
  | finished (bytesTransferred : Nat)
  | fatal (errorMessage : String)
  | starved (i bytesTransferred consecutiveErrors : Nat)
deriving DecidableEq

/-- The SEND_CHUNK invocation the loop issues at index `i`
(part_000:201-218). -/
def mkChunkSend (payload : List Nat) (chunkSize i : Nat) : ChunkSend :=
  ⟨i, arrayBufferToBase64
    (sliceBytes payload (i * chunkSize) (min (i * chunkSize + chunkSize) payload.length))⟩

/-- The chunked transfer loop of startUpdate (part_000:200-253), driven by an
oracle listing the outcome of each successive sendCommand(SEND_CHUNK) call.
Faithful details: a resolved-but-unsuccessful response increments
consecutiveErrors once before the throw (part_000:221) and the catch block
increments it again (part_000:232), so a device rejection adds two; a
rejected promise only hits the catch and adds one.  The ceiling test is
`consecutiveErrors >= 3` (part_000:238 with maxConsecutiveErrors = 3,
part_000:198).  Below the ceiling the catch does `i--; continue`, so the same
index is retried and `bytesTransferred = end` (part_000:252) is skipped.  A
successful chunk resets the counter to zero (part_000:227). -/
def chunkLoop (payload : List Nat) (chunkSize totalChunks : Nat)
    (oracle : List CmdOutcome) (i bytesTransferred consecutiveErrors : Nat) :
    List ChunkSend × LoopResult :=
  if i < totalChunks then
    match oracle with
    | [] => ([], .starved i bytesTransferred consecutiveErrors)
    | o :: rest =>
      let fin := min (i * chunkSize + chunkSize) payload.length
      let send := mkChunkSend payload chunkSize i
      match o with
      | .resolved r =>
        if r.success = some true then
          let q := chunkLoop payload chunkSize totalChunks rest (i + 1) fin 0
          (send :: q.1, q.2)
        else
          let ce := consecutiveErrors + 2
          if 3 ≤ ce then
            (send :: [], .fatal ("Too many consecutive errors (" ++ toString ce ++
              "). Last error: " ++
              jsOr r.message ("Chunk " ++ toString (i + 1) ++ " rejected by device")))
          else
            let q := chunkLoop payload chunkSize totalChunks rest i bytesTransferred ce
            (send :: q.1, q.2)
      | .rejected msg =>
        let ce := consecutiveErrors + 1
        if 3 ≤ ce then
          (send :: [], .fatal ("Too many consecutive errors (" ++ toString ce ++
            "). Last error: " ++ msg))
        else
          let q := chunkLoop payload chunkSize totalChunks rest i bytesTransferred ce
          (send :: q.1, q.2)
  else ([], .finished bytesTransferred)

/-- A status message with its type tag, as passed to the status callbacks. -/
structure UpdateStatusMsg where
  message : String
  type : String
deriving DecidableEq

/-- Externally visible effect of the finalize tail of startUpdate
(part_000:263-307): the status reported, the value passed to
onUpdateInProgress, and whether the delayed serial.disconnect was scheduled
(part_000:281).  An unsuccessful or rejected FINISH_UPDATE throws into the
outer catch (part_000:295-307), which reports the failure and also ends the
in-progress state. -/
structure FinishEffect where
  statusMsg : Option UpdateStatusMsg
  inProgressSet : Option Bool
  disconnectScheduled : Bool
deriving DecidableEq

/-- The finalize tail of startUpdate (part_000:263-307) as a function of the
FINISH_UPDATE outcome (delivered through sendCommandWithRetry, whose final
attempt propagates the error unchanged, useSerial.ts:150-164). -/
def finishPhase (finishResponse : CmdOutcome) : FinishEffect :=
  match finishResponse with
  | .resolved r =>
    if r.success = some true then
      ⟨some ⟨"Update completed! Device will restart automatically.", "success"⟩,
        some false, true⟩
    else
      ⟨some ⟨"Update failed: " ++ jsOr r.message "Failed to finish update", "error"⟩,
        some false, false⟩
  | .rejected msg =>
    ⟨some ⟨"Update failed: " ++ msg, "error"⟩, some false, false⟩

/-- Externally visible effect of abortUpdate (part_000:312-321): the value
passed to onUpdateInProgress (if called), whether resetProgress was called,
and the status reported (if any). -/
structure AbortEffect where
  inProgressSet : Option Bool
  progressReset : Bool
  statusMsg : Option UpdateStatusMsg
deriving DecidableEq

/-- abortUpdate (part_000:312-321) as a function of the ABORT_UPDATE command
outcome.  When the awaited sendCommand rejects, control jumps to the catch
block, which only logs: neither onUpdateInProgress(false) nor resetProgress
nor the status report runs. -/
def abortUpdate (outcome : CmdOutcome) : AbortEffect :=
  match outcome with
  | .resolved _ => ⟨some false, true, some ⟨"Update aborted", "warning"⟩⟩
  | .rejected _ => ⟨none, false, none⟩

/-- Externally visible effect of one window.progressHandler invocation
(part_000:90-102): the value passed to onUpdateInProgress (if called) and the
status reported (if any). -/
structure ProgressEffect where
  inProgressSet : Option Bool
  statusMsg : Option UpdateStatusMsg
deriving DecidableEq

/-- window.progressHandler (part_000:90-102): a completed frame immediately
ends the in-progress state and reports terminal success or failure; the
failure message takes response.message when present and nonempty, falling
back to the default failure text via jsOr. -/
def progressHandler (response : SerialResponse) : ProgressEffect :=
  if response.completed = some true then
    ⟨some false,
      some (if response.success = some true then
        ⟨"Update completed successfully! Device will restart.", "success"⟩
      else
        ⟨jsOr response.message "Update failed", "error"⟩)⟩
  else ⟨none, none⟩

/-- Actions the connect flow (useSerial.ts:243-328) performs after the port
is open and the listener started. -/
inductive ConnectAction where
  | sendCmd (command : String)
  | disconnectCall
  | closePort
  | statusReport (message : String) (type : String)
  | deviceInfoSet (r : SerialResponse)
deriving DecidableEq

/-- The mode-validation part of connect (useSerial.ts:275-320) as a function
of the GET_INFO outcome: the ordered action trace and the boolean connect
returns.  A resolved response with truthy success but a current_mode other
than Update Mode takes the wrong-mode branch (useSerial.ts:286-294):
disconnect, warning status, return false. -/
def connectAfterOpen (getInfo : CmdOutcome) : List ConnectAction × Bool :=
  let pre : List ConnectAction :=
    [.statusReport "Checking device mode..." "info", .sendCmd "GET_INFO"]
  match getInfo with
  | .rejected _ =>
    (pre ++ [.closePort, .disconnectCall,
      .statusReport
        "Unable to communicate with device. Please ensure device is in Update Mode and try again."
        "error"], false)
  | .resolved info =>
    if info.success = some true then
      if info.current_mode ≠ some "Update Mode" then
        (pre ++ [.disconnectCall,
          .statusReport
            ("Device is in " ++ optStr info.current_mode ++
              ". Please switch to Update Mode and connect again.")
            "warning"], false)
      else
        (pre ++ [.deviceInfoSet info,
          .statusReport "Device connected successfully in Update Mode" "success"], true)
    else
      (pre ++ [.disconnectCall,
        .statusReport
          "Could not verify device mode. Please ensure device is in Update Mode and try again."
          "error"], false)

/-- A device response carrying success with no other fields, used in closed
statements. -/
def rPlain (b : Bool) : SerialResponse :=
  ⟨some b, none, none, none, none, none⟩

/-- A device rejection response (success false with a message), used in
closed statements. -/
def rNack : SerialResponse :=
  ⟨some false, some "nack", none, none, none, none⟩

/-- The completed-failure progress frame of the spec scenario. -/
def rProgressFail : SerialResponse :=
  ⟨some false, some "flash write error", none, some true, none, none⟩

/-- A parser recognising exactly the remainder `p` as the response `r`; used
to instantiate closed statements. -/
def parseAt (r : SerialResponse) : List Char → Option SerialResponse :=
  fun l => if l = ['p'] then some r else none

/-- Prepend a carry onto the first part of a split, merging it with the head
part; used to state how splitNl acts on an append. -/
def consHead (p : List Char) : List (List Char) → List (List Char)
  | [] => [p]
  | q :: qs => (p ++ q) :: qs

theorem startsWithL_append_self (p rest : List Char) : startsWithL (p ++ rest) p = true := by
  induction p with
  | nil => simp [startsWithL]
  | cons c cs ih => simp [startsWithL, ih]

theorem err_not_ok (line : List Char) (h : startsWithL line errPfx = true) :
    startsWithL line okPfx = false := by
  cases line with
  | nil => simp [startsWithL, errPfx] at h
  | cons c cs =>
    simp [startsWithL, errPfx] at h
    simp [startsWithL, okPfx, h.1]

theorem prog_not_ok (line : List Char) (h : startsWithL line progPfx = true) :
    startsWithL line okPfx = false := by
  cases line with
  | nil => simp [startsWithL, progPfx] at h
  | cons c cs =>
    simp [startsWithL, progPfx] at h
    simp [startsWithL, okPfx, h.1]

theorem prog_not_err (line : List Char) (h : startsWithL line progPfx = true) :
    startsWithL line errPfx = false := by
  cases line with
  | nil => simp [startsWithL, progPfx] at h
  | cons c cs =>
    simp [startsWithL, progPfx] at h
    simp [startsWithL, errPfx, h.1]

theorem drop_err (rest : List Char) : (errPfx ++ rest).drop 6 = rest := by
  simp [errPfx]

theorem swl_err_append (rest : List Char) : startsWithL (errPfx ++ rest) okPfx = false := by
  simp [errPfx, okPfx, startsWithL]

theorem deliveryCount_zero_of_fresh (parse : List Char → Option SerialResponse)
    (evs : List TEvent) :
    ∀ (s : TransportState) (id : Nat), id < s.nextId →
      (∀ w, s.pending = some w → w.id ≠ id) →
      deliveryCount (runT parse s evs).2 id = 0 := by
  induction evs with
  | nil => intro s id _ _; simp [runT, deliveryCount]
  | cons e es ih =>
    intro s id hlt hne
    cases e with
    | send cmd =>
      simp only [runT, step]
      rw [deliveryCount, List.countP_cons]
      simp only []
      have := ih ⟨some ⟨s.nextId, cmd⟩, s.nextId + 1⟩ id (Nat.lt_succ_of_lt hlt)
        (by rintro w hw
            obtain rfl : (⟨s.nextId, cmd⟩ : Waiter) = w := Option.some.inj hw
            show s.nextId ≠ id
            omega)
      rw [deliveryCount] at this
      simp [this]
    | timeoutFire w =>
      simp only [runT, step]
      rw [deliveryCount, List.countP_cons]
      have := ih ⟨none, s.nextId⟩ id hlt (by intro w hw; cases hw)
      rw [deliveryCount] at this
      simp [this]
    | lineArrive line =>
      simp only [runT]
      rcases hcl : classifyLine parse line with _ | r | r | r
      all_goals simp only [step, hcl]
      · rw [deliveryCount, List.countP_cons]
        have := ih s id hlt hne
        rw [deliveryCount] at this
        simp [this]
      · rcases hp : s.pending with _ | w
        · simp only [hp]
          rw [deliveryCount, List.countP_cons]
          have := ih s id hlt hne
          rw [deliveryCount] at this
          simp [this]
        · simp only [hp]
          rw [deliveryCount, List.countP_cons]
          have h2 := ih ⟨none, s.nextId⟩ id hlt (by intro w hw; cases hw)
          rw [deliveryCount] at h2
          have hwid : w.id ≠ id := hne w hp
          simp [h2, hwid]
      · rcases hp : s.pending with _ | w
        · simp only [hp]
          rw [deliveryCount, List.countP_cons]
          have := ih s id hlt hne
          rw [deliveryCount] at this
          simp [this]
        · simp only [hp]
          rw [deliveryCount, List.countP_cons]
          have h2 := ih ⟨none, s.nextId⟩ id hlt (by intro w hw; cases hw)
          rw [deliveryCount] at h2
          have hwid : w.id ≠ id := hne w hp
          simp [h2, hwid]
      · rw [deliveryCount, List.countP_cons]
        have := ih s id hlt hne
        rw [deliveryCount] at this
        simp [this]

theorem deliveryCount_le_one (parse : List Char → Option SerialResponse)
    (evs : List TEvent) :
    ∀ (s : TransportState) (id : Nat),
      (∀ w, s.pending = some w → w.id < s.nextId) →
      deliveryCount (runT parse s evs).2 id ≤ 1 := by
  induction evs with
  | nil => intro s id _; simp [runT, deliveryCount]
  | cons e es ih =>
    intro s id hinv
    cases e with
    | send cmd =>
      simp only [runT, step]
      rw [deliveryCount, List.countP_cons]
      have := ih ⟨some ⟨s.nextId, cmd⟩, s.nextId + 1⟩ id
        (by rintro w hw
            obtain rfl : (⟨s.nextId, cmd⟩ : Waiter) = w := Option.some.inj hw
            show s.nextId < s.nextId + 1
            omega)
      rw [deliveryCount] at this
      simpa using this
    | timeoutFire w =>
      simp only [runT, step]
      rw [deliveryCount, List.countP_cons]
      have := ih ⟨none, s.nextId⟩ id (by intro w hw; cases hw)
      rw [deliveryCount] at this
      simpa using this
    | lineArrive line =>
      simp only [runT]
      rcases hcl : classifyLine parse line with _ | r | r | r
      all_goals simp only [step, hcl]
      · rw [deliveryCount, List.countP_cons]
        have := ih s id hinv
        rw [deliveryCount] at this
        simpa using this
      · rcases hp : s.pending with _ | w
        · simp only [hp]
          rw [deliveryCount, List.countP_cons]
          have := ih s id hinv
          rw [deliveryCount] at this
          simpa using this
        · simp only [hp]
          rw [deliveryCount, List.countP_cons]
          by_cases hid : w.id = id
          · have h0 := deliveryCount_zero_of_fresh parse es ⟨none, s.nextId⟩ id
              (hid ▸ hinv w hp) (by intro w hw; cases hw)
            rw [deliveryCount] at h0
            simp [hid, h0]
          · have := ih ⟨none, s.nextId⟩ id (by intro w hw; cases hw)
            rw [deliveryCount] at this
            simp only [List.countP]
            simpa [hid] using this
      · rcases hp : s.pending with _ | w
        · simp only [hp]
          rw [deliveryCount, List.countP_cons]
          have := ih s id hinv
          rw [deliveryCount] at this
          simpa using this
        · simp only [hp]
          rw [deliveryCount, List.countP_cons]
          by_cases hid : w.id = id
          · have h0 := deliveryCount_zero_of_fresh parse es ⟨none, s.nextId⟩ id
              (hid ▸ hinv w hp) (by intro w hw; cases hw)
            rw [deliveryCount] at h0
            simp [hid, h0]
          · have := ih ⟨none, s.nextId⟩ id (by intro w hw; cases hw)
            rw [deliveryCount] at this
            simp only [List.countP]
            simpa [hid] using this
      · rw [deliveryCount, List.countP_cons]
        have := ih s id hinv
        rw [deliveryCount] at this
        simpa using this

theorem splitNl_ne_nil (l : List Char) : splitNl l ≠ [] := by
  cases l with
  | nil => simp [splitNl]
  | cons c cs =>
    by_cases h : c = '\n'
    · simp [splitNl, h]
    · simp only [splitNl, if_neg h]
      rcases hs : splitNl cs with _ | ⟨q, qs⟩ <;> simp

theorem getLastD_default_irrel {α : Type} (l : List α) (h : l ≠ []) (d1 d2 : α) :
    l.getLastD d1 = l.getLastD d2 := by
  cases l with
  | nil => exact absurd rfl h
  | cons x xs => rw [List.getLastD_cons, List.getLastD_cons]

theorem getLastD_append_ne_nil {α : Type} (a : List α) :
    ∀ (b : List α), b ≠ [] → ∀ (d : α), (a ++ b).getLastD d = b.getLastD d := by
  induction a with
  | nil => intro b _ d; rfl
  | cons c cs ih =>
    intro b h d
    rw [List.cons_append, List.getLastD_cons, ih b h c]
    cases b with
    | nil => exact absurd rfl h
    | cons x xs => rw [List.getLastD_cons, List.getLastD_cons]

theorem getLastD_mem {α : Type} : ∀ (l : List α) (d : α), l ≠ [] → l.getLastD d ∈ l := by
  intro l
  induction l with
  | nil => intro d h; exact absurd rfl h
  | cons x xs ih =>
    intro d _
    rw [List.getLastD_cons]
    cases hx : xs with
    | nil => simp [List.getLastD]
    | cons y ys =>
      rw [← hx]
      exact List.mem_cons_of_mem x (ih x (by simp [hx]))

theorem splitNl_cons_nl (cs : List Char) : splitNl ('\n' :: cs) = [] :: splitNl cs := by
  simp [splitNl]

theorem splitNl_cons_ne (c : Char) (cs : List Char) (h : ¬c = '\n') (q : List Char)
    (qs : List (List Char)) (hs : splitNl cs = q :: qs) :
    splitNl (c :: cs) = (c :: q) :: qs := by
  simp [splitNl, if_neg h, hs]

theorem splitNl_append (a b : List Char) :
    splitNl (a ++ b) =
      (splitNl a).dropLast ++ consHead ((splitNl a).getLastD []) (splitNl b) := by
  induction a with
  | nil =>
    rcases hs : splitNl b with _ | ⟨q, qs⟩
    · exact absurd hs (splitNl_ne_nil b)
    · simp [splitNl, consHead, hs]
  | cons c cs ih =>
    by_cases h : c = '\n'
    · subst h
      rw [List.cons_append, splitNl_cons_nl (cs ++ b), splitNl_cons_nl cs, ih]
      rcases hs : splitNl cs with _ | ⟨q, qs⟩
      · exact absurd hs (splitNl_ne_nil cs)
      · cases qs with
        | nil => simp [List.getLastD_cons]
        | cons q1 qs1 => simp [List.getLastD_cons]
    · rcases hs : splitNl cs with _ | ⟨q, qs⟩
      · exact absurd hs (splitNl_ne_nil cs)
      · cases qs with
        | nil =>
          rcases hb : splitNl b with _ | ⟨r, rs⟩
          · exact absurd hb (splitNl_ne_nil b)
          · have h1 : splitNl (cs ++ b) = (q ++ r) :: rs := by
              rw [ih, hs, hb]; simp [consHead]
            rw [List.cons_append, splitNl_cons_ne c (cs ++ b) h _ _ h1,
              splitNl_cons_ne c cs h q [] hs]
            simp [consHead, hb, List.getLastD_cons]
        | cons q1 qs1 =>
          have h1 : splitNl (cs ++ b) =
              q :: ((q1 :: qs1).dropLast ++
                consHead ((q1 :: qs1).getLastD q) (splitNl b)) := by
            rw [ih, hs]
            simp only [List.dropLast_cons₂, List.getLastD_cons, List.cons_append]
          rw [List.cons_append, splitNl_cons_ne c (cs ++ b) h _ _ h1,
            splitNl_cons_ne c cs h q (q1 :: qs1) hs]
          simp only [List.dropLast_cons₂, List.getLastD_cons, List.cons_append]

theorem no_newline_mem_splitNl : ∀ (l p : List Char), p ∈ splitNl l → '\n' ∉ p := by
  intro l
  induction l with
  | nil => intro p hp; simp [splitNl] at hp; simp [hp]
  | cons c cs ih =>
    intro p hp
    by_cases h : c = '\n'
    · subst h
      rw [splitNl_cons_nl, List.mem_cons] at hp
      rcases hp with hp | hp
      · simp [hp]
      · exact ih p hp
    · rcases hs : splitNl cs with _ | ⟨q, qs⟩
      · exact absurd hs (splitNl_ne_nil cs)
      · rw [splitNl_cons_ne c cs h q qs hs, List.mem_cons] at hp
        rcases hp with hp | hp
        · subst hp
          intro hmem
          rw [List.mem_cons] at hmem
          rcases hmem with hmem | hmem
          · exact h hmem.symm
          · exact ih q (by rw [hs]; exact List.mem_cons_self q qs) hmem
        · exact ih p (by rw [hs]; exact List.mem_cons_of_mem q hp)

theorem splitNl_eq_single : ∀ (p : List Char), '\n' ∉ p → splitNl p = [p] := by
  intro p
  induction p with
  | nil => intro _; rfl
  | cons c cs ih =>
    intro h
    have hc : ¬c = '\n' := fun hh => h (hh ▸ List.mem_cons_self c cs)
    have hcs : splitNl cs = [cs] := ih fun hh => h (List.mem_cons_of_mem c hh)
    rw [splitNl_cons_ne c cs hc cs [] hcs]

theorem consHead_ne_nil (p : List Char) (Q : List (List Char)) : consHead p Q ≠ [] := by
  cases Q <;> simp [consHead]

theorem readStep_append (b x y : List Char) :
    readStep b (x ++ y) =
      ((readStep b x).1 ++ (readStep (readStep b x).2 y).1,
        (readStep (readStep b x).2 y).2) := by
  have hb1nl : '\n' ∉ (splitNl (b ++ x)).getLastD [] :=
    no_newline_mem_splitNl (b ++ x) _ (getLastD_mem _ [] (splitNl_ne_nil _))
  have h2 : splitNl ((splitNl (b ++ x)).getLastD [] ++ y) =
      consHead ((splitNl (b ++ x)).getLastD []) (splitNl y) := by
    rw [splitNl_append, splitNl_eq_single _ hb1nl]
    simp [List.getLastD_cons]
  simp only [readStep]
  rw [← List.append_assoc, splitNl_append (b ++ x) y, h2,
    List.dropLast_append_of_ne_nil _ (consHead_ne_nil _ _),
    getLastD_append_ne_nil _ _ (consHead_ne_nil _ _)]
  simp [emitLines, List.filterMap_append]

theorem readLoop_eq_single : ∀ (chunks : List (List Char)) (b : List Char), '\n' ∉ b →
    readLoop b chunks = readStep b chunks.flatten := by
  intro chunks
  induction chunks with
  | nil =>
    intro b hb
    simp [readLoop, readStep, splitNl_eq_single b hb, emitLines, List.getLastD_cons]
  | cons c cs ih =>
    intro b hb
    have hb' : '\n' ∉ (readStep b c).2 :=
      no_newline_mem_splitNl (b ++ c) _ (getLastD_mem _ [] (splitNl_ne_nil _))
    simp only [readLoop, List.flatten_cons]
    rw [readStep_append b c cs.flatten, ih (readStep b c).2 hb']

theorem le_mul_ceilDiv (N C : Nat) (hC : 0 < C) : N ≤ C * ((N + C - 1) / C) := by
  have h1 := Nat.div_add_mod (N + C - 1) C
  have h2 := Nat.mod_lt (N + C - 1) hC
  generalize hq : (N + C - 1) / C = q at h1 h2 ⊢
  generalize hm : C * q = m at h1 ⊢
  omega

theorem eq_zero_of_ceilDiv_eq_zero (N C : Nat) (hC : 0 < C)
    (h : (N + C - 1) / C = 0) : N = 0 := by
  rw [Nat.div_eq_zero_iff (by omega)] at h
  omega

theorem chunkLoop_all_success (payload : List Nat) (C total : Nat) :
    ∀ (oracle : List CmdOutcome) (i bt : Nat), oracle.all isOkOutcome = true →
      i + oracle.length = total →
      chunkLoop payload C total oracle i bt 0 =
        ((List.range' i oracle.length).map (mkChunkSend payload C),
          .finished (if oracle.length = 0 then bt
            else min (total * C) payload.length)) := by
  intro oracle
  induction oracle with
  | nil =>
    intro i bt _ hlen
    simp only [List.length_nil, Nat.add_zero] at hlen
    rw [chunkLoop, if_neg (by omega)]
    simp [List.range']
  | cons o rest ih =>
    intro i bt hok hlen
    simp only [List.all_cons, Bool.and_eq_true] at hok
    simp only [List.length_cons] at hlen
    have hi : i < total := by omega
    obtain ⟨r, rfl, hr⟩ : ∃ r, o = CmdOutcome.resolved r ∧ r.success = some true := by
      cases o with
      | resolved r =>
        refine ⟨r, rfl, ?_⟩
        simpa [isOkOutcome] using hok.1
      | rejected m => simp [isOkOutcome] at hok
    rw [chunkLoop, if_pos hi]
    simp only [hr, reduceIte]
    rw [ih (i + 1) (min (i * C + C) payload.length) hok.2 (by omega)]
    simp only [List.length_cons, List.range'_succ i rest.length 1, List.map_cons,
      Prod.mk.injEq]
    refine ⟨trivial, ?_⟩
    by_cases hrest : rest.length = 0
    · have hit : i + 1 = total := by omega
      have hmul : total * C = i * C + C := by rw [← hit]; ring
      simp [hrest, hmul]
    · simp [hrest]

/-- Claim C1 counterexample.  A chunk failure does not always increment the
consecutive-error counter by exactly one: a device rejection (resolved
response with success false) increments it twice, once at part_000:221 before
the throw and once in the catch at part_000:232.  After a single such failure
the counter reads 2, and two consecutive rejections already abort with the
counter at 4 — the transfer never sees a third attempt, contradicting the
claimed ceiling behaviour of exactly three unit increments. -/
theorem C1_counterexample :
    (chunkLoop [7] 1 1 [.resolved rNack] 0 0 0).2 = .starved 0 0 2 ∧
    (chunkLoop [7] 1 1 [.resolved rNack, .resolved rNack] 0 0 0).2 =
      .fatal "Too many consecutive errors (4). Last error: nack" := by
  constructor <;> decide

/-- Claim C1 (amended).  On a chunk failure the same chunk index is retried
and bytesTransferred does not advance; a rejected (thrown) send increments
the consecutive-error counter by one while a device rejection (resolved
unsuccessful response) increments it by two; when the counter reaches at
least 3 the transfer aborts fatally with the last underlying error message
preserved in the abort message; a successful chunk advances the index,
updates bytesTransferred and resets the counter to zero. -/
theorem C1_amended_thm (payload : List Nat) (chunkSize total : Nat)
    (oracle : List CmdOutcome) (i bt ce : Nat) (hi : i < total) :
    (∀ msg, ce + 1 < 3 →
      chunkLoop payload chunkSize total (.rejected msg :: oracle) i bt ce =
        (mkChunkSend payload chunkSize i ::
          (chunkLoop payload chunkSize total oracle i bt (ce + 1)).1,
          (chunkLoop payload chunkSize total oracle i bt (ce + 1)).2)) ∧
    (∀ msg, 3 ≤ ce + 1 →
      (chunkLoop payload chunkSize total (.rejected msg :: oracle) i bt ce).2 =
        .fatal ("Too many consecutive errors (" ++ toString (ce + 1) ++
          "). Last error: " ++ msg)) ∧
    (∀ r : SerialResponse, r.success ≠ some true → ce + 2 < 3 →
      chunkLoop payload chunkSize total (.resolved r :: oracle) i bt ce =
        (mkChunkSend payload chunkSize i ::
          (chunkLoop payload chunkSize total oracle i bt (ce + 2)).1,
          (chunkLoop payload chunkSize total oracle i bt (ce + 2)).2)) ∧
    (∀ r : SerialResponse, r.success ≠ some true → 3 ≤ ce + 2 →
      (chunkLoop payload chunkSize total (.resolved r :: oracle) i bt ce).2 =
        .fatal ("Too many consecutive errors (" ++ toString (ce + 2) ++
          "). Last error: " ++
          jsOr r.message ("Chunk " ++ toString (i + 1) ++ " rejected by device"))) ∧
    (∀ r : SerialResponse, r.success = some true →
      chunkLoop payload chunkSize total (.resolved r :: oracle) i bt ce =
        (mkChunkSend payload chunkSize i ::
          (chunkLoop payload chunkSize total oracle (i + 1)
            (min (i * chunkSize + chunkSize) payload.length) 0).1,
          (chunkLoop payload chunkSize total oracle (i + 1)
            (min (i * chunkSize + chunkSize) payload.length) 0).2)) := by
  refine ⟨?_, ?_, ?_, ?_, ?_⟩
  · intro msg h
    rw [chunkLoop, if_pos hi]
    simp only [if_neg (by omega : ¬3 ≤ ce + 1)]
  · intro msg h
    rw [chunkLoop, if_pos hi]
    simp only [if_pos h]
  · intro r hr h
    rw [chunkLoop, if_pos hi]
    simp only [if_neg hr, if_neg (by omega : ¬3 ≤ ce + 2)]
  · intro r hr h
    rw [chunkLoop, if_pos hi]
    simp only [if_neg hr, if_pos h]
  · intro r hr
    rw [chunkLoop, if_pos hi]
    simp only [if_pos hr]

/-- Claim C1 amended witness: one rejected send at index 0 with counter 0
retries index 0 with counter 1 and bytesTransferred still 0. -/
theorem C1_amended_witness :
    chunkLoop [7, 8] 1 2 [CmdOutcome.rejected "boom"] 0 0 0 =
      (mkChunkSend [7, 8] 1 0 :: (chunkLoop [7, 8] 1 2 [] 0 0 1).1,
        (chunkLoop [7, 8] 1 2 [] 0 0 1).2) :=
  (C1_amended_thm [7, 8] 1 2 [] 0 0 0 (by decide)).1 "boom" (by decide)

/-- Claim C2.  For every parser and every line made of the ERROR: lead-in
followed by a remainder the parser accepts as some response r, the
classified response — and the response delivered to the pending waiter — has
success equal to some false, whatever r.success was (including some true or
absent). -/
theorem C2_error_forces_failure (parse : List Char → Option SerialResponse)
    (rest : List Char) (r : SerialResponse) (h : parse rest = some r) (w : Waiter) :
    classifyLine parse (errPfx ++ rest) = .errResp { r with success := some false } ∧
    handleResponse parse (errPfx ++ rest) (some w) =
      ⟨none, some (w.id, { r with success := some false }), none⟩ := by
  have h1 : startsWithL (errPfx ++ rest) okPfx = false := by
    simp [errPfx, okPfx, startsWithL]
  have h2 := startsWithL_append_self errPfx rest
  have h3 : (errPfx ++ rest).drop 6 = rest := by simp [errPfx]
  have hcl : classifyLine parse (errPfx ++ rest) = .errResp { r with success := some false } := by
    rw [classifyLine, if_neg (by simp [h1]), if_pos h2, h3, h]
  exact ⟨hcl, by rw [handleResponse, hcl]⟩

/-- Claim C2 witness: a payload decoding to success true is delivered with
success false. -/
theorem C2_witness :
    parseAt (rPlain true) ['p'] = some (rPlain true) ∧
    classifyLine (parseAt (rPlain true)) (errPfx ++ ['p']) = .errResp (rPlain false) ∧
    handleResponse (parseAt (rPlain true)) (errPfx ++ ['p']) (some ⟨0, "SEND_CHUNK"⟩) =
      ⟨none, some (0, rPlain false), none⟩ := by
  have h := C2_error_forces_failure (parseAt (rPlain true)) ['p'] (rPlain true)
    (by decide) ⟨0, "SEND_CHUNK"⟩
  exact ⟨by decide, h.1, h.2⟩

/-- Claim C3 counterexample.  sendCommand invoked while registration 0 is
still pending does not fail: the transition is silent (no error output) and
the slot afterwards holds a brand-new registration 1, i.e. a second waiter
was registered, replacing the first (useSerial.ts:121 assigns
pendingCommandRef.current without any occupancy check). -/
theorem C3_counterexample :
    (step parseNone ⟨some ⟨0, "GET_INFO"⟩, 1⟩ (.send "GET_STATUS")).2 = .silent ∧
    (step parseNone ⟨some ⟨0, "GET_INFO"⟩, 1⟩ (.send "GET_STATUS")).1.pending =
      some ⟨1, "GET_STATUS"⟩ :=
  ⟨rfl, rfl⟩

/-- Claim C3 (amended).  sendCommand never rejects for occupancy: from any
state, send silently overwrites the pending slot with a fresh registration
(the displaced waiter can then only fail through its own timeout).  The
at-most-once half of the claim does hold: over every event sequence from the
initial transport state, any given registration is delivered at most one
response, because handleResponse clears the slot before invoking the stored
continuation. -/
theorem C3_amended_thm (parse : List Char → Option SerialResponse)
    (s : TransportState) (cmd : String) (evs : List TEvent) (id : Nat) :
    step parse s (.send cmd) = (⟨some ⟨s.nextId, cmd⟩, s.nextId + 1⟩, .silent) ∧
    deliveryCount (runT parse ⟨none, 0⟩ evs).2 id ≤ 1 :=
  ⟨rfl, deliveryCount_le_one parse evs ⟨none, 0⟩ id (by intro w hw; cases hw)⟩

/-- Claim C4.  For every decoded byte stream and every way of splitting it
into successive read fragments, the read loop emits exactly the same
sequence of trimmed nonempty lines (and ends with the same carry buffer) as
when the whole stream arrives in a single read: classification input is
independent of chunk boundaries. -/
theorem C4_chunk_boundary_independence (chunks : List (List Char)) :
    readLoop [] chunks = readLoop [] [chunks.flatten] := by
  rw [readLoop_eq_single chunks [] (by simp),
    readLoop_eq_single [chunks.flatten] [] (by simp)]
  simp

/-- Claim C5.  A line that has none of the OK:/ERROR:/PROGRESS: lead-ins, or
has one but whose remainder the parser refuses, leaves handleResponse
without resolving anything and without touching the pending slot; the model
being a total function mirrors the early returns of the try/catch blocks of
useSerial.ts:175-200, through which no exception escapes to the read loop. -/
theorem C5_unclassified_inert (parse : List Char → Option SerialResponse)
    (line : List Char) (pending : Option Waiter)
    (h : (startsWithL line okPfx = false ∧ startsWithL line errPfx = false ∧
        startsWithL line progPfx = false) ∨
      (startsWithL line okPfx = true ∧ parse (line.drop 3) = none) ∨
      (startsWithL line errPfx = true ∧ parse (line.drop 6) = none) ∨
      (startsWithL line progPfx = true ∧ parse (line.drop 9) = none)) :
    handleResponse parse line pending = ⟨pending, none, none⟩ := by
  have hcl : classifyLine parse line = .droppedLine := by
    rcases h with ⟨h1, h2, h3⟩ | ⟨h1, h2⟩ | ⟨h1, h2⟩ | ⟨h1, h2⟩
    · rw [classifyLine, if_neg (by simp [h1]), if_neg (by simp [h2]),
        if_neg (by simp [h3])]
    · rw [classifyLine, if_pos h1, h2]
    · rw [classifyLine, if_neg (by simp [err_not_ok line h1]), if_pos h1, h2]
    · rw [classifyLine, if_neg (by simp [prog_not_ok line h1]),
        if_neg (by simp [prog_not_err line h1]), if_pos h1, h2]
  rw [handleResponse, hcl]

/-- Claim C5 witness: a noise line leaves an occupied slot exactly as it
was. -/
theorem C5_witness :
    handleResponse parseNone ['H', 'i'] (some ⟨0, "GET_INFO"⟩) =
      ⟨some ⟨0, "GET_INFO"⟩, none, none⟩ :=
  C5_unclassified_inert parseNone ['H', 'i'] (some ⟨0, "GET_INFO"⟩)
    (Or.inl (by decide))

/-- Claim C6.  The timeout transition clears the pending slot in the same
atomic step that surfaces the timeout error (useSerial.ts:117-118 null the
slot before reject), and from the resulting state every classified
non-progress line produces a silent transition: it is dropped, delivered to
no caller, and changes nothing. -/
theorem C6_timeout_clears_slot (parse : List Char → Option SerialResponse)
    (s : TransportState) (w : Waiter) (line : List Char) (r : SerialResponse)
    (hc : classifyLine parse line = .okResp r ∨ classifyLine parse line = .errResp r) :
    step parse s (.timeoutFire w) = (⟨none, s.nextId⟩, .timeoutError w.id w.command) ∧
    step parse (step parse s (.timeoutFire w)).1 (.lineArrive line) =
      ((step parse s (.timeoutFire w)).1, .silent) := by
  refine ⟨rfl, ?_⟩
  rcases hc with hc | hc <;> simp [step, hc]

/-- Claim C6 witness: after a SEND_CHUNK timeout the slot is empty and a
late OK response is silently dropped. -/
theorem C6_witness :
    step (parseAt (rPlain true)) ⟨some ⟨0, "SEND_CHUNK"⟩, 1⟩
        (.timeoutFire ⟨0, "SEND_CHUNK"⟩) =
      (⟨none, 1⟩, .timeoutError 0 "SEND_CHUNK") ∧
    step (parseAt (rPlain true)) ⟨none, 1⟩ (.lineArrive (okPfx ++ ['p'])) =
      (⟨none, 1⟩, .silent) :=
  C6_timeout_clears_slot (parseAt (rPlain true)) ⟨some ⟨0, "SEND_CHUNK"⟩, 1⟩
    ⟨0, "SEND_CHUNK"⟩ (okPfx ++ ['p']) (rPlain true) (Or.inl (by decide))

/-- Claim C7.  After a successful GET_INFO whose current_mode is not Update
Mode, connect performs exactly the wrong-mode trace: disconnect is invoked,
a user-facing wrong-mode warning is reported, false is returned, and no
START_UPDATE command appears anywhere in the actions of that connection
attempt. -/
theorem C7_wrong_mode_disconnects (info : SerialResponse)
    (hs : info.success = some true) (hm : info.current_mode ≠ some "Update Mode") :
    connectAfterOpen (.resolved info) =
      ([.statusReport "Checking device mode..." "info", .sendCmd "GET_INFO",
        .disconnectCall,
        .statusReport ("Device is in " ++ optStr info.current_mode ++
          ". Please switch to Update Mode and connect again.") "warning"], false) ∧
    ConnectAction.disconnectCall ∈ (connectAfterOpen (.resolved info)).1 ∧
    (connectAfterOpen (.resolved info)).2 = false ∧
    ConnectAction.sendCmd "START_UPDATE" ∉ (connectAfterOpen (.resolved info)).1 := by
  have htrace : connectAfterOpen (.resolved info) =
      ([.statusReport "Checking device mode..." "info", .sendCmd "GET_INFO",
        .disconnectCall,
        .statusReport ("Device is in " ++ optStr info.current_mode ++
          ". Please switch to Update Mode and connect again.") "warning"], false) := by
    simp only [connectAfterOpen]
    rw [if_pos hs, if_pos hm]
    rfl
  refine ⟨htrace, ?_, ?_, ?_⟩
  · rw [htrace]; simp
  · rw [htrace]
  · rw [htrace]; simp

/-- Claim C7 witness: a device reporting Normal Mode is disconnected with
the wrong-mode warning and never receives START_UPDATE. -/
theorem C7_witness :
    connectAfterOpen (.resolved ⟨some true, none, none, none, none, some "Normal Mode"⟩) =
      ([.statusReport "Checking device mode..." "info", .sendCmd "GET_INFO",
        .disconnectCall,
        .statusReport "Device is in Normal Mode. Please switch to Update Mode and connect again."
          "warning"], false) ∧
    ConnectAction.sendCmd "START_UPDATE" ∉
      (connectAfterOpen (.resolved ⟨some true, none, none, none, none, some "Normal Mode"⟩)).1 := by
  have h := C7_wrong_mode_disconnects ⟨some true, none, none, none, none, some "Normal Mode"⟩
    (by decide) (by decide)
  exact ⟨h.1, h.2.2.2⟩

/-- Claim C8 evaluation.  abortUpdate ends the in-progress state and resets
progress when the ABORT_UPDATE promise resolves (with success true or
false), but when it rejects — timeout or write failure — the catch block at
part_000:318-320 only logs: onUpdateInProgress(false) and resetProgress are
skipped and the local state remains updating, contradicting the claim (and
the stated spec intent) that every outcome ends the update-in-progress
state. -/
theorem C8_abort_outcomes :
    abortUpdate (.rejected "Command timeout: ABORT_UPDATE") = ⟨none, false, none⟩ ∧
    abortUpdate (.resolved (rPlain true)) =
      ⟨some false, true, some ⟨"Update aborted", "warning"⟩⟩ ∧
    abortUpdate (.resolved (rPlain false)) =
      ⟨some false, true, some ⟨"Update aborted", "warning"⟩⟩ :=
  ⟨rfl, rfl, rfl⟩

/-- Claim C9.  A line classified as a PROGRESS frame with completed true is
routed to the progress consumer from any transport state — in particular
with a chunk command still pending, whose slot is left untouched and whose
response is not waited on — and the progress handler immediately sets
update-in-progress to false and reports terminal success or failure
according to the frame success field, using the frame message on failure. -/
theorem C9_completed_progress_terminates (parse : List Char → Option SerialResponse)
    (s : TransportState) (line : List Char) (r : SerialResponse)
    (hc : classifyLine parse line = .progressResp r) (hdone : r.completed = some true) :
    step parse s (.lineArrive line) = (s, .progressOut r) ∧
    progressHandler r = ⟨some false,
      some (if r.success = some true then
        ⟨"Update completed successfully! Device will restart.", "success"⟩
      else ⟨jsOr r.message "Update failed", "error"⟩)⟩ := by
  constructor
  · simp [step, hc]
  · rw [progressHandler, if_pos hdone]

/-- Claim C9 witness: the flash-write-error completion frame arriving while
chunk registration 49 is in flight ends the attempt as failed with that
message. -/
theorem C9_witness :
    step (parseAt rProgressFail) ⟨some ⟨49, "SEND_CHUNK"⟩, 50⟩
        (.lineArrive (progPfx ++ ['p'])) =
      (⟨some ⟨49, "SEND_CHUNK"⟩, 50⟩, .progressOut rProgressFail) ∧
    progressHandler rProgressFail =
      ⟨some false, some ⟨"flash write error", "error"⟩⟩ := by
  have h := C9_completed_progress_terminates (parseAt rProgressFail)
    ⟨some ⟨49, "SEND_CHUNK"⟩, 50⟩ (progPfx ++ ['p']) rProgressFail
    (by decide) (by decide)
  exact ⟨h.1, by rw [h.2]; decide⟩

/-- Claim C10.  Against an all-success device, the transfer loop issues
exactly ceil(N/C) SEND_CHUNK commands for an N-byte payload and chunk size
C > 0, the i-th carrying the base64 encoding of the payload slice from i*C
to min((i+1)*C, N), finishing with bytesTransferred = N; and a FINISH_UPDATE
response with success true produces the terminal success status, ends the
in-progress state and schedules the delayed disconnect. -/
theorem C10_all_success_run (payload : List Nat) (C total : Nat)
    (oracle : List CmdOutcome) (hC : 0 < C)
    (htotal : total = (payload.length + C - 1) / C)
    (hok : oracle.all isOkOutcome = true) (hlen : oracle.length = total) :
    chunkLoop payload C total oracle 0 0 0 =
      ((List.range total).map (mkChunkSend payload C), .finished payload.length) ∧
    (chunkLoop payload C total oracle 0 0 0).1.length =
      (payload.length + C - 1) / C ∧
    (∀ r : SerialResponse, r.success = some true →
      finishPhase (.resolved r) =
        ⟨some ⟨"Update completed! Device will restart automatically.", "success"⟩,
          some false, true⟩) := by
  have hmain := chunkLoop_all_success payload C total oracle 0 0 hok (by omega)
  have h1 : chunkLoop payload C total oracle 0 0 0 =
      ((List.range total).map (mkChunkSend payload C), .finished payload.length) := by
    rw [hmain, hlen, List.range_eq_range']
    simp only [Prod.mk.injEq]
    refine ⟨trivial, ?_⟩
    by_cases h0 : total = 0
    · have hN : payload.length = 0 := eq_zero_of_ceilDiv_eq_zero _ C hC (by omega)
      simp [h0, hN]
    · have hle : payload.length ≤ total * C := by
        have hh := le_mul_ceilDiv payload.length C hC
        rw [← htotal] at hh
        rw [Nat.mul_comm]
        exact hh
      simp [h0, Nat.min_eq_right hle]
  refine ⟨h1, ?_, ?_⟩
  · rw [h1]
    simp [htotal]
  · intro r hr
    rw [finishPhase, if_pos hr]

/-- Claim C10 witness: a 5-byte payload with 2-byte chunks issues chunks 0,
1, 2 and finishes at 5 bytes; the claimed 10000-byte, 256-byte-chunk
scenario yields exactly ceil(10000/256) = 40 SEND_CHUNK invocations; a
successful FINISH_UPDATE reports success and schedules the disconnect. -/
theorem C10_witness :
    (chunkLoop [1, 2, 3, 4, 5] 2 3 (List.replicate 3 (.resolved (rPlain true))) 0 0 0) =
      ((List.range 3).map (mkChunkSend [1, 2, 3, 4, 5] 2), .finished 5) ∧
    ((List.replicate 10000 (0 : Nat)).length + 256 - 1) / 256 = 40 ∧
    (chunkLoop (List.replicate 10000 0) 256 40
        (List.replicate 40 (.resolved (rPlain true))) 0 0 0).1.length =
      ((List.replicate 10000 (0 : Nat)).length + 256 - 1) / 256 ∧
    finishPhase (.resolved (rPlain true)) =
      ⟨some ⟨"Update completed! Device will restart automatically.", "success"⟩,
        some false, true⟩ := by
  have hlen10000 : (List.replicate 10000 (0 : Nat)).length = 10000 :=
    List.length_replicate 10000 0
  refine ⟨?_, ?_, ?_, ?_⟩
  · exact (C10_all_success_run [1, 2, 3, 4, 5] 2 3 _ (by decide) (by decide)
      (by decide) (by decide)).1
  · rw [hlen10000]
  · exact (C10_all_success_run (List.replicate 10000 0) 256 40 _ (by decide)
      (by rw [hlen10000]) (by simp [List.all_eq_true]; decide) (by simp)).2.1
  · exact (C10_all_success_run [1, 2, 3, 4, 5] 2 3
      (List.replicate 3 (.resolved (rPlain true))) (by decide) (by decide)
      (by decide) (by decide)).2.2 (rPlain true) rfl
